import Mathlib

/-!
Shallow embedding of the core text-position, search/replace, highlighting,
dirty-state and autosave logic of `texiteditor.py` (classes
`FindReplaceDialog` and `EditorApp`), with theorems settling the
specification claims about them.

Strings are modelled as `List Char`; character offsets and Tk `line.col`
indices are natural numbers (Tk lines are 1-based, columns 0-based).
-/

namespace TexitEditor

/-- Characters that Python `str.splitlines` treats as a line break on their
own; a `\r` immediately followed by `\n` counts as a single break and is
handled separately in `splitlines`. -/
def isLineBreak (c : Char) : Bool :=
  c = '\n' || c = '\r' || c = '\x0b' || c = '\x0c' ||
  c = '\x1c' || c = '\x1d' || c = '\x1e' || c = '\x85' ||
  c = '\u2028' || c = '\u2029'

/-- Python `str.splitlines(keepends)` on a list of characters: split at line
breaks, keeping the terminators when `keep` is true; a trailing break does
not create an empty final line and an empty string yields no lines. -/
def splitlines (keep : Bool) : List Char → List (List Char)
  | [] => []
  | '\r' :: '\n' :: rest =>
      (if keep then ['\r', '\n'] else []) :: splitlines keep rest
  | c :: rest =>
      if isLineBreak c then
        (if keep then [c] else []) :: splitlines keep rest
      else
        match splitlines keep rest with
        | [] => [[c]]
        | l :: ls => (c :: l) :: ls

/-- The scanning loop of `FindReplaceDialog._int_to_index`: walk the first
`p` characters of the text, counting newlines into a 1-based line number and
a 0-based column. -/
def scanPos : List Char → Nat → Nat → Nat → Nat × Nat
  | _, 0, line, col => (line, col)
  | [], _ + 1, line, col => (line, col)
  | c :: rest, p + 1, line, col =>
      if c = '\n' then scanPos rest p (line + 1) 0
      else scanPos rest p line (col + 1)

/-- `FindReplaceDialog._int_to_index`: an absolute character offset to a Tk
`line.col` index, returned here as the `(line, col)` pair that the Python
code prints into the index string and that `_index_to_int` parses back.
Offsets are natural numbers, so the Python guard `pos <= 0` is `pos = 0`;
at or past the end of the text the line/column are recovered from
`text.splitlines()` exactly as in the source. -/
def int_to_index (text : List Char) (pos : Nat) : Nat × Nat :=
  if pos = 0 then (1, 0)
  else if text.length ≤ pos then
    let lines := splitlines false text
    let lastLine := lines.length
    let lastCol := if lastLine ≠ 0 then (lines.getLastD []).length else 0
    (max 1 lastLine, lastCol)
  else scanPos text pos 1 0

/-- `FindReplaceDialog._index_to_int`: a Tk `line.col` index back to an
absolute offset, summing the lengths of the `min (line - 1) (number of
lines)` leading lines of `text.splitlines(True)` and adding the column. -/
def index_to_int (line col : Nat) (text : List Char) : Nat :=
  let lines := splitlines true text
  (((lines.take (min (line - 1) lines.length)).map List.length).sum) + col

/-- The round trip of the spec: an offset through `_int_to_index` and back
through `_index_to_int` on the same document text. -/
def offsetRoundTrip (text : List Char) (o : Nat) : Nat :=
  index_to_int (int_to_index text o).1 (int_to_index text o).2 text

/-- Character comparison of the compiled patterns: exact when the Match
case box is ticked, otherwise folded as with `re.IGNORECASE`. -/
def chEq (caseSensitive : Bool) (a b : Char) : Bool :=
  if caseSensitive then a = b else a.toLower = b.toLower

/-- Does the escaped-literal pattern match at the head of `t`? -/
def prefMatch (cs : Bool) : List Char → List Char → Bool
  | [], _ => true
  | _ :: _, [] => false
  | a :: as, b :: bs => chEq cs a b && prefMatch cs as bs

/-- Does the literal pattern match `text` at offset `i`? -/
def matchesAt (cs : Bool) (pat text : List Char) (i : Nat) : Bool :=
  prefMatch cs pat (text.drop i)

/-- Model of `pattern.search(text, pos)` for the escaped-literal pattern the
dialog compiles when the Regex box is off: the least offset `i ≥ pos` at
which the literal matches (`re` tries the positions `pos, pos+1, ...` in
order and a nonempty literal cannot match past the end). -/
def findFrom (cs : Bool) (pat text : List Char) (pos : Nat) : Option Nat :=
  (List.range (text.length + 1)).find? fun i =>
    decide (pos ≤ i) && matchesAt cs pat text i

/-- `FindReplaceDialog._search` in literal (non-regex) mode, over offsets:
an empty needle returns None at once; otherwise search forward from
`startIndex + 1`, wrapping to 0 on failure; the caller `find_next` converts
the returned (start, end) offsets to Tk indices. -/
def searchLit (cs : Bool) (needle text : List Char) (startIndex : Nat) :
    Option (Nat × Nat) :=
  if needle = [] then none
  else
    match findFrom cs needle text (startIndex + 1) with
    | some i => some (i, i + needle.length)
    | none =>
        match findFrom cs needle text 0 with
        | some i => some (i, i + needle.length)
        | none => none

/-- The part of the Tk text-widget state the Find dialog reads and writes:
the document text, the `sel` tag range and the `insert` mark, the latter two
as character offsets (`sel` is `none` when no selection exists). -/
structure EdState where
  text : List Char
  sel : Option (Nat × Nat)
  insert : Nat
deriving DecidableEq

/-- A compiled `re` pattern, modelled by the two operations the dialog uses
on it: `search text pos` (the least match span at offset ≥ pos, if any) and
`sub repl text` (global substitution over the text). The regex engine
itself is the external `re` module. -/
structure RePattern where
  search : List Char → Nat → Option (Nat × Nat)
  sub : List Char → List Char → List Char

/-- Outcome of `_search` in regex mode: a span, no match, or a Python
exception that propagates out of the method (the source has no try/except
anywhere on this path). -/
inductive SearchOutcome where
  | found : Nat × Nat → SearchOutcome
  | notFound : SearchOutcome
  | raised : String → SearchOutcome
deriving DecidableEq

/-- `FindReplaceDialog._search` with the Regex box on: `re.compile` may
raise `re.error` (the `Except.error` result of the compile oracle); the
method installs no handler, so the exception escapes as `raised`. -/
def searchRegex (compile : List Char → Except String RePattern)
    (needle text : List Char) (startIndex : Nat) : SearchOutcome :=
  if needle = [] then .notFound
  else
    match compile needle with
    | .error m => .raised m
    | .ok pat =>
        match pat.search text (startIndex + 1) with
        | some sp => .found sp
        | none =>
            match pat.search text 0 with
            | some sp => .found sp
            | none => .notFound

/-- `find_next` in regex mode: on a found span the selection is retagged and
`insert` moves to the span end; on no match nothing is touched; on an
escaped `re.error` nothing has been touched either and the exception keeps
propagating (second component of the result). -/
def findNextRegex (compile : List Char → Except String RePattern)
    (needle : List Char) (st : EdState) : EdState × Option String :=
  match searchRegex compile needle st.text st.insert with
  | .found (s, e) => ({ st with sel := some (s, e), insert := e }, none)
  | .notFound => (st, none)
  | .raised m => (st, some m)

/-- `replace_all` in regex mode: an empty needle returns at once; otherwise
compile, substitute over the whole buffer text and rewrite the buffer only
when the result differs (clearing the selection, with the insert mark after
the inserted text). A compile failure escapes before any mutation. -/
def replaceAllRegex (compile : List Char → Except String RePattern)
    (needle repl : List Char) (st : EdState) : EdState × Option String :=
  if needle = [] then (st, none)
  else
    match compile needle with
    | .error m => (st, some m)
    | .ok pat =>
        let newText := pat.sub repl st.text
        if newText ≠ st.text then
          (({ text := newText, sel := none, insert := newText.length } : EdState),
            none)
        else (st, none)

/-- `text.delete(a, b)` on the model: remove the half-open offset range. -/
def deleteRange (text : List Char) (a b : Nat) : List Char :=
  text.take a ++ text.drop b

/-- Where a Tk mark at offset `i` lands after `text.delete(a, b)`: marks
inside the deleted range collapse to its start, later marks shift left. -/
def markAfterDelete (i a b : Nat) : Nat :=
  if i ≤ a then i else if i ≤ b then a else i - (b - a)

/-- `FindReplaceDialog.find_next` in literal mode: on a match, clear the old
`sel` tag, tag the span and move `insert` to its end; on no match the
method does nothing (the existing selection stays). -/
def find_next (cs : Bool) (needle : List Char) (st : EdState) : EdState :=
  match searchLit cs needle st.text st.insert with
  | some (s, e) => { st with sel := some (s, e), insert := e }
  | none => st

/-- `FindReplaceDialog.replace_one`: if ANY selection exists it is deleted
and the replacement inserted at the (relocated) `insert` mark — the
inserted text is not selected and the mark ends after it; only with no
selection does it fall back to `find_next`. -/
def replace_one (cs : Bool) (needle repl : List Char) (st : EdState) : EdState :=
  match st.sel with
  | some (a, b) =>
      let afterDel := deleteRange st.text a b
      let ins := markAfterDelete st.insert a b
      { text := afterDel.take ins ++ repl ++ afterDel.drop ins,
        sel := none,
        insert := ins + repl.length }
  | none => find_next cs needle st

/-- One pass of `pattern.sub(repl, text)` for the escaped-literal pattern:
scan left to right, replacing each non-overlapping occurrence and resuming
after it. `fuel` (the text length at every call site) bounds the scan; the
needle is nonempty on every call site, so each step consumes at least one
character. The replacement is emitted literally (it contains no `re`
template escapes in any claim considered here). -/
def subAllGo (cs : Bool) (pat repl : List Char) : Nat → List Char → List Char
  | _, [] => []
  | 0, t => t
  | fuel + 1, c :: rest =>
      if prefMatch cs pat (c :: rest) then
        repl ++ subAllGo cs pat repl fuel ((c :: rest).drop pat.length)
      else c :: subAllGo cs pat repl fuel rest

/-- `pattern.sub(repl, text)` over the whole text. -/
def subAll (cs : Bool) (pat repl text : List Char) : List Char :=
  subAllGo cs pat repl text.length text

/-- `FindReplaceDialog.replace_all` in literal mode: an empty needle
returns at once; otherwise substitute over the whole buffer text in one
pass and rewrite the buffer (second component `true`) only when the result
differs from the original. -/
def replace_all (cs : Bool) (needle repl text : List Char) :
    List Char × Bool :=
  if needle = [] then (text, false)
  else
    let newText := subAll cs needle repl text
    if newText ≠ text then (newText, true) else (text, false)

/-- The `EditorApp` state relevant to open/save/autosave: the buffer text,
the bound file path, the dirty flag and the autosave-enabled setting. -/
structure AppState where
  text : List Char
  filePath : Option String
  dirty : Bool
  autosaveEnabled : Bool
deriving DecidableEq

/-- `EditorApp.save_file`, with the outcome of the disk write given by the
oracle `writeOk` and the Save As dialog response by `saveAsChoice` (`none`
is a cancelled dialog). Returns (new state, returned value, error-dialog
shown, bound path written). With no bound path it delegates to
`save_file_as`, which binds the chosen path and retries; a failed write
displays `messagebox.showerror` and returns False with the dirty flag and
text untouched. -/
def save_file (writeOk : Bool) (saveAsChoice : Option String)
    (st : AppState) : AppState × Bool × Bool × Bool :=
  match st.filePath with
  | none =>
      match saveAsChoice with
      | none => (st, false, false, false)
      | some p =>
          if writeOk then
            ({ st with filePath := some p, dirty := false }, true, false, true)
          else
            ({ st with filePath := some p }, false, true, false)
  | some _ =>
      if writeOk then ({ st with dirty := false }, true, false, true)
      else (st, false, true, false)

/-- Observable result of one `_autosave_tick`. -/
structure TickResult where
  state : AppState
  dialogShown : Bool
  wroteToPath : Bool
  wroteSnapshot : Bool
  rescheduled : Bool
deriving DecidableEq

/-- `EditorApp._autosave_tick`: when autosave is enabled, a bound dirty
document is saved via `save_file` (whose failure dialog therefore surfaces
from inside the tick), a document with no bound path gets a timestamped
snapshot written to the scratch directory unconditionally — `snapOk` is the
outcome of that write, whose failure raises and is swallowed by the bare
except — and the `finally` always reschedules the timer. When autosave is
disabled the tick does nothing and does not reschedule. -/
def autosave_tick (writeOk snapOk : Bool) (st : AppState) : TickResult :=
  if st.autosaveEnabled then
    match st.filePath with
    | some _ =>
        if st.dirty then
          let r := save_file writeOk none st
          { state := r.1, dialogShown := r.2.2.1, wroteToPath := r.2.2.2,
            wroteSnapshot := false, rescheduled := true }
        else
          { state := st, dialogShown := false, wroteToPath := false,
            wroteSnapshot := false, rescheduled := true }
    | none =>
        { state := st, dialogShown := false, wroteToPath := false,
          wroteSnapshot := snapOk, rescheduled := true }
  else
    { state := st, dialogShown := false, wroteToPath := false,
      wroteSnapshot := false, rescheduled := false }

/-- `EditorApp._maybe_save_changes`: `resp` is the yes/no/cancel answer of
the unsaved-changes box (`none` is Cancel). Returns the state plus whether
the caller may proceed. -/
def maybe_save_changes (resp : Option Bool) (writeOk : Bool)
    (saveAsChoice : Option String) (st : AppState) : AppState × Bool :=
  if st.dirty = false then (st, true)
  else
    match resp with
    | none => (st, false)
    | some true =>
        let r := save_file writeOk saveAsChoice st
        (r.1, r.2.1)
    | some false => (st, true)

/-- `EditorApp.open_file`: after the unsaved-changes gate, `chosenPath` is
the file-dialog result (`none` is a cancelled dialog) and `readRes` the
outcome of reading it; on a successful read the buffer, path and dirty flag
are replaced wholesale, on a failed read an error box is reported (second
component) and the previous document is left intact. -/
def open_file (resp : Option Bool) (writeOk : Bool)
    (saveAsChoice : Option String) (chosenPath : Option String)
    (readRes : Except String (List Char)) (st : AppState) :
    AppState × Bool :=
  let g := maybe_save_changes resp writeOk saveAsChoice st
  if g.2 = false then (g.1, false)
  else
    match chosenPath with
    | none => (g.1, false)
    | some p =>
        match readRes with
        | Except.ok data =>
            ({ g.1 with text := data, filePath := some p, dirty := false }, false)
        | Except.error _ => (g.1, true)

/-- `EditorApp._on_text_modified`: the Modified handler sets the dirty
flag. -/
def on_text_modified (st : AppState) : AppState := { st with dirty := true }

/-- A text mutation: the widget applies the new text and fires Modified,
whose handler sets the dirty flag. -/
def textEdit (newText : List Char) (st : AppState) : AppState :=
  on_text_modified { st with text := newText }

/-- Characters for which Python `str.isspace()` holds; `str.strip()` with
no argument strips exactly these, so `not content.strip()` is true iff
every character of the content satisfies this predicate. -/
def isPySpace (c : Char) : Bool :=
  c = ' ' || c = '\t' || c = '\n' || c = '\x0b' || c = '\x0c' || c = '\r' ||
  c = '\x1c' || c = '\x1d' || c = '\x1e' || c = '\x1f' || c = '\x85' ||
  c = '\xa0' || c = '\u1680' ||
  (decide ('\u2000' ≤ c) && decide (c ≤ '\u200a')) ||
  c = '\u2028' || c = '\u2029' || c = '\u202f' || c = '\u205f' || c = '\u3000'

/-- A pygments token type, as its path below the root `Token`: for example
Token.Name.Builtin is the list "Name", "Builtin". The membership test
`toktype in Token.X` of pygments is the subtree test, i.e. path prefix. -/
abbrev TokType := List String

/-- Is `sub` a path prefix of `tok` (pygments token subtype test)? -/
def tokenIn (sub tok : TokType) : Bool :=
  match sub, tok with
  | [], _ => true
  | _ :: _, [] => false
  | a :: as, b :: bs => a = b && tokenIn as bs

/-- A highlight span: a display-class tag over a half-open offset range. -/
structure Span where
  tag : String
  start : Nat
  stop : Nat
deriving DecidableEq

/-- The `tag_for` mapping of `_highlight_now`: first matching pygments
subtree wins, anything unmatched is plain text. -/
def tag_for (tok : TokType) : String :=
  if tokenIn ["Keyword"] tok then "tok-kw"
  else if tokenIn ["Name", "Builtin"] tok then "tok-builtin"
  else if tokenIn ["Literal", "String"] tok then "tok-str"
  else if tokenIn ["Literal", "Number"] tok then "tok-num"
  else if tokenIn ["Comment"] tok then "tok-com"
  else if tokenIn ["Operator"] tok then "tok-op"
  else if tokenIn ["Punctuation"] tok then "tok-punc"
  else if tokenIn ["Name", "Function"] tok then "tok-func"
  else if tokenIn ["Name", "Class"] tok then "tok-cls"
  else "tok-text"

/-- The tagging loop of `_highlight_now`: walk the lexer's (token, value)
stream, skipping empty values without emitting anything, otherwise emitting
the span at the running offset and advancing it by the value length. -/
def tagSpans : Nat → List (TokType × List Char) → List Span
  | _, [] => []
  | pos, (tok, value) :: rest =>
      if value.length = 0 then tagSpans pos rest
      else
        ⟨tag_for tok, pos, pos + value.length⟩ ::
          tagSpans (pos + value.length) rest

/-- `EditorApp._highlight_now` as the span sequence it tags: nothing when
pygments is unavailable, nothing when the text is empty or all whitespace
(the `not content.strip()` early return fires before the lexer is even
consulted), otherwise the spans of the lexer token stream — the external
lexer output is the `tokens` parameter. -/
def highlight_now (lexAvailable : Bool) (content : List Char)
    (tokens : List (TokType × List Char)) : List Span :=
  if lexAvailable = false then []
  else if content.all isPySpace = true then []
  else tagSpans 0 tokens

/-- C1: the offset/position round trip fails on the code. For the document
"a" followed by a newline (so the text ends with a newline) and the valid
offset o = 2 = length(text), `_int_to_index` yields the Tk index 1.1 and
`_index_to_int` maps that back to 1, not 2: the claimed law
positionToOffset(text, offsetToPosition(text, o)) = o is violated exactly in
the case the claim singles out. -/
theorem c1_roundtrip_fails_at_trailing_newline :
    int_to_index ['a', '\n'] 2 = (1, 1) ∧
    offsetRoundTrip ['a', '\n'] 2 = 1 ∧
    offsetRoundTrip ['a', '\n'] 2 ≠ 2 := by decide

/-- A nonempty literal cannot match at or past the end of the text. -/
theorem matchesAt_of_length_le (cs : Bool) (pat text : List Char) (i : Nat)
    (hp : pat ≠ []) (hi : text.length ≤ i) : matchesAt cs pat text i = false := by
  unfold matchesAt
  rw [List.drop_eq_nil_of_le hi]
  cases pat with
  | nil => exact absurd rfl hp
  | cons a as => rfl

/-- `findFrom` misses exactly when no position from `pos` on matches. -/
theorem findFrom_eq_none_iff (cs : Bool) (pat text : List Char) (pos : Nat)
    (hp : pat ≠ []) :
    findFrom cs pat text pos = none ↔
      ∀ i, pos ≤ i → matchesAt cs pat text i = false := by
  unfold findFrom
  rw [List.find?_eq_none]
  constructor
  · intro h i hpos
    by_cases hlen : i ≤ text.length
    · have hmem : i ∈ List.range (text.length + 1) :=
        List.mem_range.mpr (Nat.lt_succ_of_le hlen)
      have hni := h i hmem
      simp only [Bool.and_eq_true, decide_eq_true_eq, not_and] at hni
      have := hni hpos
      simpa using this
    · exact matchesAt_of_length_le cs pat text i hp
        (Nat.le_of_lt (Nat.lt_of_not_le hlen))
  · intro h x _
    simp only [Bool.and_eq_true, decide_eq_true_eq, not_and]
    intro hpx
    simp [h x hpx]

/-- `_search` (literal mode) returns None exactly when the needle is empty
or occurs nowhere in the document. -/
theorem searchLit_eq_none_iff (cs : Bool) (needle text : List Char) (s : Nat) :
    searchLit cs needle text s = none ↔
      (needle = [] ∨ ∀ i, matchesAt cs needle text i = false) := by
  by_cases h : needle = []
  · simp [searchLit, h]
  · unfold searchLit
    rw [if_neg h]
    constructor
    · intro hn
      cases h1 : findFrom cs needle text (s + 1) with
      | some i => rw [h1] at hn; exact absurd hn (by simp)
      | none =>
        cases h2 : findFrom cs needle text 0 with
        | some i => rw [h1, h2] at hn; exact absurd hn (by simp)
        | none =>
          right
          intro i
          exact ((findFrom_eq_none_iff cs needle text 0 h).mp h2) i (Nat.zero_le i)
    · intro hall
      rcases hall with h0 | hall
      · exact absurd h0 h
      · have e1 : findFrom cs needle text (s + 1) = none :=
          (findFrom_eq_none_iff cs needle text (s + 1) h).mpr fun i _ => hall i
        have e2 : findFrom cs needle text 0 = none :=
          (findFrom_eq_none_iff cs needle text 0 h).mpr fun i _ => hall i
        rw [e1, e2]

/-- C2 counterexample: on the document "abcXabc" with the case-sensitive
literal pattern "abc", `_search` from offset 4 starts scanning at offset 5,
finds nothing ahead, and wraps to the span starting at 0 — it does NOT
return the span starting at 4 that the claim states. -/
theorem c2_counterexample :
    searchLit true ['a', 'b', 'c'] ['a', 'b', 'c', 'X', 'a', 'b', 'c'] 4 =
      some (0, 3) ∧
    some ((0 : Nat), (3 : Nat)) ≠ some ((4 : Nat), (7 : Nat)) := by decide

/-- C2 amended: on "abcXabc" with case-sensitive "abc", `_search` from
offset 4 wraps and returns the span from 0 to 3; invoked again from the
resulting position (insert at offset 3) it returns the span from 4 to 7;
and in general `_search` returns None exactly when the pattern is empty or
absent from the whole document. -/
theorem c2_search_wraparound :
    searchLit true ['a', 'b', 'c'] ['a', 'b', 'c', 'X', 'a', 'b', 'c'] 4 =
      some (0, 3) ∧
    searchLit true ['a', 'b', 'c'] ['a', 'b', 'c', 'X', 'a', 'b', 'c'] 3 =
      some (4, 7) ∧
    ∀ (cs : Bool) (needle text : List Char) (s : Nat),
      searchLit cs needle text s = none ↔
        (needle = [] ∨ ∀ i, matchesAt cs needle text i = false) := by
  refine ⟨by decide, by decide, ?_⟩
  exact fun cs needle text s => searchLit_eq_none_iff cs needle text s

/-- C3: an invalid regex is NOT reported as a distinct bad-pattern failure.
Whenever `re.compile` fails, the `re.error` escapes `_search` and
`replace_all` uncaught (there is no handler on either path); the text and
selection are left unchanged only because the exception aborts the handler
before any mutation. -/
theorem c3_invalid_regex_escapes
    (compile : List Char → Except String RePattern)
    (needle repl : List Char) (st : EdState) (m : String)
    (hne : needle ≠ []) (hc : compile needle = Except.error m) :
    findNextRegex compile needle st = (st, some m) ∧
    replaceAllRegex compile needle repl st = (st, some m) := by
  constructor
  · simp [findNextRegex, searchRegex, hne, hc]
  · simp [replaceAllRegex, hne, hc]

/-- Witness for C3 at the concrete invalid pattern "(", which `re.compile`
rejects with the message "missing ), unterminated subpattern". -/
theorem c3_invalid_regex_escapes_w :
    findNextRegex (fun _ => Except.error "missing )") ['('] ⟨['a'], none, 0⟩ =
      (⟨['a'], none, 0⟩, some "missing )") ∧
    replaceAllRegex (fun _ => Except.error "missing )") ['('] ['z']
        ⟨['a'], none, 0⟩ =
      (⟨['a'], none, 0⟩, some "missing )") :=
  c3_invalid_regex_escapes (fun _ => Except.error "missing )") ['('] ['z']
    ⟨['a'], none, 0⟩ "missing )" (by decide) rfl

/-- C4 counterexample: on the document "xxabc" the only match of the
case-sensitive pattern "abc" is the span from 2 to 5; the current selection
is the span from 0 to 2, which differs from it, so the claim predicts
find-next behaviour (document unmodified) — but `replace_one` replaces the
selection and the document becomes "Qabc". -/
theorem c4_counterexample :
    ((List.range 6).filter
        (fun i => matchesAt true ['a', 'b', 'c'] ['x', 'x', 'a', 'b', 'c'] i)) =
      [2] ∧
    (replace_one true ['a', 'b', 'c'] ['Q']
        ⟨['x', 'x', 'a', 'b', 'c'], some (0, 2), 2⟩).text = ['Q', 'a', 'b', 'c'] ∧
    (['Q', 'a', 'b', 'c'] : List Char) ≠ ['x', 'x', 'a', 'b', 'c'] := by decide

/-- C4 amended: `replace_one` replaces the current selection with the
replacement whenever any selection exists — regardless of whether it equals
the span of the active find match — deleting the selected range and leaving
the cursor after the inserted text; only when no selection exists does it
behave as `find_next`, which never modifies the document text. -/
theorem c4_replace_one_amended (cs : Bool) (needle repl : List Char)
    (st : EdState) :
    (∀ a b, st.sel = some (a, b) →
        replace_one cs needle repl st =
          ⟨(deleteRange st.text a b).take (markAfterDelete st.insert a b) ++
              repl ++
              (deleteRange st.text a b).drop (markAfterDelete st.insert a b),
            none, markAfterDelete st.insert a b + repl.length⟩) ∧
    (st.sel = none →
        replace_one cs needle repl st = find_next cs needle st ∧
        (replace_one cs needle repl st).text = st.text) := by
  constructor
  · intro a b hab
    unfold replace_one
    rw [hab]
  · intro h0
    have hfn : (find_next cs needle st).text = st.text := by
      unfold find_next
      cases hs : searchLit cs needle st.text st.insert with
      | none => rfl
      | some p => obtain ⟨s, e⟩ := p; rfl
    have hro : replace_one cs needle repl st = find_next cs needle st := by
      unfold replace_one
      rw [h0]
    exact ⟨hro, by rw [hro]; exact hfn⟩

/-- Witness for C4: with the selection from 0 to 2 on "xxabc" the selection
is replaced (document becomes "Qabc", cursor after the inserted text); with
no selection the document text is untouched. -/
theorem c4_replace_one_amended_w :
    replace_one true ['a', 'b', 'c'] ['Q']
        ⟨['x', 'x', 'a', 'b', 'c'], some (0, 2), 2⟩ =
      ⟨['Q', 'a', 'b', 'c'], none, 1⟩ ∧
    (replace_one true ['a', 'b', 'c'] ['Q']
        ⟨['x', 'x', 'a', 'b', 'c'], none, 0⟩).text =
      ['x', 'x', 'a', 'b', 'c'] := by
  constructor
  · have h := (c4_replace_one_amended true ['a', 'b', 'c'] ['Q']
      ⟨['x', 'x', 'a', 'b', 'c'], some (0, 2), 2⟩).1 0 2 rfl
    rw [h]; decide
  · exact ((c4_replace_one_amended true ['a', 'b', 'c'] ['Q']
      ⟨['x', 'x', 'a', 'b', 'c'], none, 0⟩).2 rfl).2

/-- C5: the autosave tick does NOT swallow every failure. With a bound
path and a dirty document, a failed write makes `save_file` display its
modal error dialog from inside the tick — the claim forbids any blocking
dialog — while the timer is still rescheduled by the `finally`. -/
theorem c5_autosave_failure_shows_dialog :
    (autosave_tick false true ⟨['x'], some "doc.txt", true, true⟩).dialogShown =
      true ∧
    (autosave_tick false true ⟨['x'], some "doc.txt", true, true⟩).rescheduled =
      true := by decide

/-- C6 counterexample: a CLEAN untitled document (dirty false, no bound
path) still gets a scratch snapshot written on an enabled tick, although
the claim allows a snapshot only for a dirty document. -/
theorem c6_counterexample :
    (autosave_tick true true ⟨['h', 'i'], none, false, true⟩).wroteSnapshot =
      true ∧
    (⟨['h', 'i'], none, false, true⟩ : AppState).dirty = false := by decide

/-- C6 amended: a tick writes to the bound path exactly when autosave is
enabled, a path is bound, the document is dirty and the write succeeds; a
scratch snapshot is written exactly when autosave is enabled, no path is
bound and the write succeeds — regardless of the dirty flag. -/
theorem c6_autosave_write_characterization (w sOk : Bool) (st : AppState) :
    (autosave_tick w sOk st).wroteToPath =
      (st.autosaveEnabled && st.filePath.isSome && st.dirty && w) ∧
    (autosave_tick w sOk st).wroteSnapshot =
      (st.autosaveEnabled && st.filePath.isNone && sOk) := by
  obtain ⟨t, fp, d, en⟩ := st
  cases en <;> cases d <;> cases fp <;> cases w <;> cases sOk <;>
    simp [autosave_tick, save_file]

/-- C7: `replace_all` with an empty pattern is a no-op; on "foo foo foo"
with pattern "foo" and replacement "bar" (either case setting) the single
substitution pass yields "bar bar bar" and rewrites the buffer; applying it
again leaves the buffer untouched; and the buffer is rewritten exactly when
the substituted text differs from the original. -/
theorem c7_replace_all :
    (∀ (cs : Bool) (repl text : List Char),
        replace_all cs [] repl text = (text, false)) ∧
    (∀ cs : Bool,
        replace_all cs ['f', 'o', 'o'] ['b', 'a', 'r'] "foo foo foo".toList =
          ("bar bar bar".toList, true)) ∧
    (∀ cs : Bool,
        replace_all cs ['f', 'o', 'o'] ['b', 'a', 'r'] "bar bar bar".toList =
          ("bar bar bar".toList, false)) ∧
    (∀ (cs : Bool) (needle repl text : List Char),
        (replace_all cs needle repl text).2 = false ↔
          (replace_all cs needle repl text).1 = text) := by
  refine ⟨?_, by decide, by decide, ?_⟩
  · intro cs repl text
    simp [replace_all]
  · intro cs needle repl text
    unfold replace_all
    by_cases h : needle = []
    · simp [h]
    · rw [if_neg h]
      by_cases heq : subAll cs needle repl text = text
      · rw [if_neg (by simp [heq])]
        simp
      · rw [if_pos heq]
        simp [heq]

/-- C8: a successful open clears the dirty flag; every text mutation sets
it; a save that returns success clears it; a save whose write fails leaves
both the dirty flag and the in-memory text unchanged (so a dirty document
stays dirty). -/
theorem c8_dirty_state_machine :
    (∀ (resp : Option Bool) (wOk : Bool) (sac : Option String) (p : String)
        (data : List Char) (st : AppState),
        (maybe_save_changes resp wOk sac st).2 = true →
        ((open_file resp wOk sac (some p) (Except.ok data) st).1).dirty =
          false) ∧
    (∀ (t : List Char) (st : AppState), (textEdit t st).dirty = true) ∧
    (∀ (wOk : Bool) (sac : Option String) (st : AppState),
        (save_file wOk sac st).2.1 = true →
        ((save_file wOk sac st).1).dirty = false) ∧
    (∀ (sac : Option String) (st : AppState),
        ((save_file false sac st).1).dirty = st.dirty ∧
        ((save_file false sac st).1).text = st.text) := by
  refine ⟨?_, ?_, ?_, ?_⟩
  · intro resp wOk sac p data st h
    simp [open_file, h]
  · intro t st
    rfl
  · intro wOk sac st h
    obtain ⟨t, fp, d, en⟩ := st
    cases fp <;> cases sac <;> cases wOk <;> simp_all [save_file]
  · intro sac st
    obtain ⟨t, fp, d, en⟩ := st
    cases fp <;> cases sac <;> simp [save_file]

/-- Witness for C8 at concrete states: opening "f.txt" over a dirty
document whose changes the user discards, editing a clean document, a
successful save of a dirty bound document, and a failed save of the same
document. -/
theorem c8_dirty_state_machine_w :
    ((open_file (some false) true none (some "f.txt") (Except.ok ['h', 'i'])
        ⟨['o'], none, true, true⟩).1).dirty = false ∧
    (textEdit ['z'] ⟨[], none, false, true⟩).dirty = true ∧
    ((save_file true none ⟨['h'], some "f.txt", true, true⟩).1).dirty = false ∧
    (((save_file false none ⟨['h'], some "f.txt", true, true⟩).1).dirty = true ∧
      ((save_file false none ⟨['h'], some "f.txt", true, true⟩).1).text =
        ['h']) := by
  refine ⟨?_, ?_, ?_, ?_⟩
  · exact c8_dirty_state_machine.1 (some false) true none "f.txt" ['h', 'i']
      ⟨['o'], none, true, true⟩ (by decide)
  · exact c8_dirty_state_machine.2.1 ['z'] ⟨[], none, false, true⟩
  · exact c8_dirty_state_machine.2.2.1 true none
      ⟨['h'], some "f.txt", true, true⟩ (by decide)
  · exact c8_dirty_state_machine.2.2.2 none ⟨['h'], some "f.txt", true, true⟩

/-- Every span the tagging loop emits from running offset `pos` starts at
or after `pos` and is strictly nonempty, and consecutive spans are ordered
end-before-start. -/
theorem tagSpans_bounds (toks : List (TokType × List Char)) :
    ∀ pos : Nat,
      (∀ s ∈ tagSpans pos toks, pos ≤ s.start ∧ s.start < s.stop) ∧
      List.Chain' (fun a b => a.stop ≤ b.start) (tagSpans pos toks) := by
  induction toks with
  | nil => intro pos; simp [tagSpans]
  | cons tv rest ih =>
    intro pos
    obtain ⟨tok, value⟩ := tv
    by_cases hz : value.length = 0
    · have h := ih pos
      simpa [tagSpans, hz] using h
    · have hpos : 0 < value.length := Nat.pos_of_ne_zero hz
      have h := ih (pos + value.length)
      refine ⟨?_, ?_⟩
      · intro s hs
        simp only [tagSpans, if_neg hz, List.mem_cons] at hs
        rcases hs with rfl | hs
        · exact ⟨Nat.le_refl _, Nat.lt_add_of_pos_right hpos⟩
        · have hb := h.1 s hs
          exact ⟨Nat.le_trans (Nat.le_add_right pos value.length) hb.1, hb.2⟩
      · simp only [tagSpans, if_neg hz]
        rw [List.chain'_cons']
        refine ⟨?_, h.2⟩
        intro y hy
        have hymem : y ∈ tagSpans (pos + value.length) rest :=
          List.mem_of_mem_head? hy
        have := (h.1 y hymem).1
        simpa using this

/-- C9: every highlight pass emits only strictly nonempty spans (empty
lexer values are skipped without emitting), and the span sequence is
offset-ordered and non-overlapping — each span ends at or before the next
begins — for every availability flag, document text and lexer stream. -/
theorem c9_highlight_spans_ordered (lexAvailable : Bool) (content : List Char)
    (tokens : List (TokType × List Char)) :
    ((highlight_now lexAvailable content tokens).all fun s =>
        decide (s.start < s.stop)) = true ∧
    List.Chain' (fun a b => a.stop ≤ b.start)
      (highlight_now lexAvailable content tokens) := by
  unfold highlight_now
  by_cases hl : lexAvailable = false
  · simp [hl]
  · rw [if_neg hl]
    by_cases hw : content.all isPySpace = true
    · simp [hw]
    · rw [if_neg hw]
      have h := tagSpans_bounds tokens 0
      refine ⟨?_, h.2⟩
      rw [List.all_eq_true]
      intro s hs
      exact decide_eq_true (h.1 s hs).2

/-- C10: on an empty or all-whitespace document the highlight pass returns
before consulting the lexer: no span at all is emitted, whatever token
stream the lexer would have produced. -/
theorem c10_blank_no_spans (lexAvailable : Bool) (content : List Char)
    (tokens : List (TokType × List Char))
    (h : content.all isPySpace = true) :
    highlight_now lexAvailable content tokens = [] := by
  unfold highlight_now
  by_cases hl : lexAvailable = false
  · rw [if_pos hl]
  · rw [if_neg hl, if_pos h]

/-- Witness for C10 at the whitespace document of a space, a tab and a
newline, against a nonempty keyword token stream. -/
theorem c10_blank_no_spans_w :
    ([' ', '\t', '\n'].all isPySpace = true) ∧
    highlight_now true [' ', '\t', '\n'] [(["Keyword"], ['x'])] = [] :=
  ⟨by decide,
    c10_blank_no_spans true [' ', '\t', '\n'] [(["Keyword"], ['x'])] (by decide)⟩

end TexitEditor
